import Mathlib

/-!
Verification of the asynchronous content-generation/evaluation pipeline and the
unified semantic search of the rickandmorty repository, as a shallow embedding.

Sources embedded here:
- the SQLite schema (src/unnamed/part_001): `generations` table, its primary key
  and the unique index `generations_unique_entity`, and the `search_index` table;
- the evaluator snippets in src/unnamed/part_002: `_compute_factual_score` and
  `score_creativity_async`;
- the search algorithm snippet `semantic_search` in
  src/docs/features/SEMANTIC_SEARCH.md;
- the job-processing shape `process_job` in src/unnamed/part_003;
- the frontend pending-score test `score >= 0` in
  src/frontend/components/dashboard/DashboardContent.tsx and src/unnamed/part_007.

The backend service bodies (generation_service.py, job_queue.py, evaluator.py,
search_service.py) are not present in the source tree; where a definition has no
code to translate, its doc comment says so and the definition follows the design
document instead. Scores are modelled as exact rationals, embeddings as lists of
reals.
-/

/-! ## Evaluator -/

/-- Translated from `_compute_factual_score` (src/unnamed/part_002, lines
174-186): `base_score = 1.0`, one `-= 0.1` per detected contradiction, then
`max(0.0, base_score)`.  The helpers `extract_facts` and `check_contradictions`
have no body in the source tree, so they are taken as parameters. -/
def _compute_factual_score (extract_facts : String → List String)
    (check_contradictions : String → List String → List String)
    (text : String) (context : String) : ℚ :=
  let canonical_facts := extract_facts context
  let contradictions := check_contradictions text canonical_facts
  let base_score := contradictions.foldl (fun s _ => s - 1/10) 1
  max 0 base_score

/-- Errors raised while evaluating a job (the worker treats every raised error
alike, per the failure policy). -/
inductive EvalError
  | evaluationFailed
  deriving DecidableEq

/-- Translated from `score_creativity_async` (src/unnamed/part_002, lines
191-201): the judge reply is fed to `float(response.strip())` and the result is
returned directly — there is no clamping and no fallback, and an unparsable
reply raises `ValueError`.  The argument models the outcome of the parse:
`some x` when `float` succeeds with value `x`, `none` when it raises. -/
def score_creativity_async (parsedResponse : Option ℚ) : Except EvalError ℚ :=
  match parsedResponse with
  | some x => Except.ok x
  | none => Except.error EvalError.evaluationFailed

/-! ## Generation data model (schema src/unnamed/part_001, lines 44-59) -/

/-- The `scores_status` column: `"INITIATED" | "GENERATED"`. -/
inductive ScoresStatus
  | INITIATED
  | GENERATED
  deriving DecidableEq

/-- One row of the `generations` table (src/unnamed/part_001, lines 44-56). -/
structure Generation where
  generation_id : String
  entity_type : String
  entity_id : String
  summary_text : String
  factual_score : ℚ
  creativity_score : ℚ
  completeness_score : ℚ
  relevance_score : ℚ
  scores_status : ScoresStatus
  created_at : String
  updated_at : String
  deriving DecidableEq

/-- The reserved pending sentinel: the docs (src/unnamed/part_002 line 144,
src/unnamed/part_003 line 821) save placeholder scores `-1`. -/
def pendingSentinel : ℚ := -1

/-- The four evaluator outputs carried by a finished scoring job. -/
structure Scores where
  factual : ℚ
  creativity : ℚ
  completeness : ℚ
  relevance : ℚ
  deriving DecidableEq

/-- Errors surfaced by the content store. -/
inductive DbError
  | uniqueViolation
  deriving DecidableEq

/-- SQLite constraint check for an insert into `generations`: the primary key
`generation_id` (src/unnamed/part_001 line 45) and the unique index
`generations_unique_entity` on `(entity_type, entity_id)` (lines 58-59) both
reject a duplicate. -/
def violatesConstraints (g : Generation) (db : List Generation) : Bool :=
  db.any (fun r =>
    r.generation_id == g.generation_id ||
      (r.entity_type == g.entity_type && r.entity_id == g.entity_id))

/-- A plain SQL `INSERT` into `generations`: errors when the primary key or the
unique index `generations_unique_entity` would be violated, otherwise appends
the row. -/
def insertGeneration (g : Generation) (db : List Generation) :
    Except DbError (List Generation) :=
  if violatesConstraints g db then Except.error DbError.uniqueViolation
  else Except.ok (db ++ [g])

/-- Errors surfaced synchronously by `generate` (design doc section 7). -/
inductive GenError
  | notFound
  | upstreamProvider
  | uniqueViolation
  deriving DecidableEq

/-- Modelled from the spec: the Generation persisted by the synchronous phase
of `generate` — `generation_service.py` is not in the source tree; the design
doc (section 4.1) and src/unnamed/part_002 lines 139-145 say it is saved with
status INITIATED and all four scores set to the placeholder `-1`. -/
def mkInitiatedGeneration (gid ety eid text now : String) : Generation :=
  { generation_id := gid
    entity_type := ety
    entity_id := eid
    summary_text := text
    factual_score := pendingSentinel
    creativity_score := pendingSentinel
    completeness_score := pendingSentinel
    relevance_score := pendingSentinel
    scores_status := ScoresStatus.INITIATED
    created_at := now
    updated_at := now }

/-- Modelled from the spec: the synchronous path of
`generate(entity_type, entity_id)` — `generation_service.py` is not in the
source tree; the design doc (sections 4.1 and 7) and the two-phase description
in src/unnamed/part_002 lines 139-145 give the order: entity lookup (NotFound
aborts), text-generation call (an upstream failure aborts before any persist),
then the INITIATED row is inserted under the schema constraints.  External
collaborators are modelled by their outcomes: `entityFacts` is the canonical
lookup result, `providerResult` the text-generation call's outcome.  The pair
returned is (what the caller sees, the content store afterwards). -/
def generate (entityFacts : Option String) (providerResult : Except Unit String)
    (gid ety eid now : String) (db : List Generation) :
    Except GenError Generation × List Generation :=
  match entityFacts with
  | none => (Except.error GenError.notFound, db)
  | some _facts =>
    match providerResult with
    | Except.error _ => (Except.error GenError.upstreamProvider, db)
    | Except.ok text =>
      let g := mkInitiatedGeneration gid ety eid text now
      match insertGeneration g db with
      | Except.error _ => (Except.error GenError.uniqueViolation, db)
      | Except.ok db2 => (Except.ok g, db2)

/-- The single write applied to the matched row by
`update(generation_id, scores)`: all four score fields, the status flip to
GENERATED and the refreshed `updated_at`, together. -/
def applyScores (s : Scores) (now : String) (g : Generation) : Generation :=
  { g with
    factual_score := s.factual
    creativity_score := s.creativity
    completeness_score := s.completeness
    relevance_score := s.relevance
    scores_status := ScoresStatus.GENERATED
    updated_at := now }

/-- Modelled from the spec: `update(generation_id, scores)` — the repository
code is not in the source tree; the design doc (section 4.3) specifies a single
atomic write of all four fields plus the status flip to GENERATED and a
refreshed `updated_at`, keyed by `generation_id`. -/
def updateScores (gid : String) (s : Scores) (now : String)
    (db : List Generation) : List Generation :=
  db.map (fun g => if g.generation_id = gid then applyScores s now g else g)

/-- All four evaluator outputs clamped to the unit interval, as the design doc
(section 4.3) requires of `update`'s input. -/
def scoresInRange (s : Scores) : Prop :=
  (0 ≤ s.factual ∧ s.factual ≤ 1) ∧ (0 ≤ s.creativity ∧ s.creativity ≤ 1) ∧
    (0 ≤ s.completeness ∧ s.completeness ≤ 1) ∧
    (0 ≤ s.relevance ∧ s.relevance ≤ 1)

/-- The content stores reachable from the empty database through the two
operations this core performs on `generations`: the synchronous phase of
`generate` (with any collaborator outcomes) and the worker's `update` (whose
scores come from the evaluator, hence lie in the unit interval). -/
inductive Reachable : List Generation → Prop
  | init : Reachable []
  | genStep (entityFacts : Option String) (providerResult : Except Unit String)
      (gid ety eid now : String) (db : List Generation) :
      Reachable db →
      Reachable (generate entityFacts providerResult gid ety eid now db).2
  | updStep (gid : String) (s : Scores) (now : String) (db : List Generation) :
      Reachable db → scoresInRange s → Reachable (updateScores gid s now db)

/-- No two rows share the `(entity_type, entity_id)` key — the unique index
`generations_unique_entity`. -/
def keyDistinct (db : List Generation) : Prop :=
  db.Pairwise (fun a b => ¬(a.entity_type = b.entity_type ∧ a.entity_id = b.entity_id))

/-- No two rows share the primary key `generation_id`. -/
def gidDistinct (db : List Generation) : Prop :=
  db.Pairwise (fun a b => a.generation_id ≠ b.generation_id)

/-- A row still waiting for the worker: INITIATED with all four scores at the
pending sentinel. -/
def allPending (g : Generation) : Prop :=
  g.scores_status = ScoresStatus.INITIATED ∧
    g.factual_score = pendingSentinel ∧ g.creativity_score = pendingSentinel ∧
    g.completeness_score = pendingSentinel ∧ g.relevance_score = pendingSentinel

/-- A row the worker has finished: GENERATED with all four scores real values
in the unit interval. -/
def allScored (g : Generation) : Prop :=
  g.scores_status = ScoresStatus.GENERATED ∧
    (0 ≤ g.factual_score ∧ g.factual_score ≤ 1) ∧
    (0 ≤ g.creativity_score ∧ g.creativity_score ≤ 1) ∧
    (0 ≤ g.completeness_score ∧ g.completeness_score ≤ 1) ∧
    (0 ≤ g.relevance_score ∧ g.relevance_score ≤ 1)

/-- Every row is either fully pending or fully scored — never a mixture. -/
def storeConsistent (db : List Generation) : Prop :=
  ∀ g ∈ db, allPending g ∨ allScored g

/-! ## EvaluationJobQueue worker -/

/-- A scoring job: ephemeral, in-memory (design doc section 3) — target
generation id, the generated text and the factual-context snapshot taken at
generation time. -/
structure ScoringJob where
  generation_id : String
  generated_text : String
  factual_context : String

/-- Modelled from the spec: the worker's handling of one job — `job_queue.py`
is not in the source tree; the shape is `process_job` in src/unnamed/part_003
lines 670-674 (evaluate, then persist via update) and the failure policy is
design doc section 4.2: a job whose processing raises any error is logged and
discarded, leaving the store untouched.  `evalRun` models the Evaluator
invocation's outcome for a job. -/
def process_job (evalRun : ScoringJob → Except EvalError Scores) (now : String)
    (db : List Generation) (job : ScoringJob) : List Generation :=
  match evalRun job with
  | Except.error _ => db
  | Except.ok s => updateScores job.generation_id s now db

/-- Modelled from the spec: the single logical consumer draining the queue
FIFO (design doc section 4.2), one `process_job` per job. -/
def runWorker (evalRun : ScoringJob → Except EvalError Scores) (now : String)
    (jobs : List ScoringJob) (db : List Generation) : List Generation :=
  jobs.foldl (process_job evalRun now) db

/-! ## Store invariants -/

lemma violatesConstraints_eq_false_iff (g : Generation) (db : List Generation) :
    violatesConstraints g db = false ↔
      ∀ r ∈ db, r.generation_id ≠ g.generation_id ∧
        ¬(r.entity_type = g.entity_type ∧ r.entity_id = g.entity_id) := by
  simp [violatesConstraints, List.any_eq_false, not_or]

lemma violatesConstraints_eq_true_iff (g : Generation) (db : List Generation) :
    violatesConstraints g db = true ↔
      ∃ r ∈ db, r.generation_id = g.generation_id ∨
        (r.entity_type = g.entity_type ∧ r.entity_id = g.entity_id) := by
  simp [violatesConstraints, List.any_eq_true]

lemma updateScores_row_fields (gid : String) (s : Scores) (now : String)
    (g : Generation) :
    (if g.generation_id = gid then applyScores s now g else g).entity_type
        = g.entity_type ∧
    (if g.generation_id = gid then applyScores s now g else g).entity_id
        = g.entity_id ∧
    (if g.generation_id = gid then applyScores s now g else g).generation_id
        = g.generation_id := by
  split <;> simp [applyScores]

lemma mem_of_gid_unique (db : List Generation) (h : gidDistinct db)
    (a : Generation) (ha : a ∈ db) (b : Generation) (hb : b ∈ db)
    (hab : a.generation_id = b.generation_id) : a = b := by
  induction db with
  | nil => cases ha
  | cons x xs ih =>
    rw [gidDistinct, List.pairwise_cons] at h
    rcases List.mem_cons.1 ha with rfl | ha' <;>
      rcases List.mem_cons.1 hb with rfl | hb'
    · rfl
    · exact absurd hab (h.1 b hb')
    · exact absurd hab.symm (h.1 a ha')
    · exact ih h.2 ha' hb'

lemma reachable_invariant (db : List Generation) (h : Reachable db) :
    keyDistinct db ∧ gidDistinct db ∧ storeConsistent db := by
  induction h with
  | init => refine ⟨List.Pairwise.nil, List.Pairwise.nil, ?_⟩; intro g hg; cases hg
  | genStep entityFacts providerResult gid ety eid now db hr ih =>
    obtain ⟨hkey, hgid, hcons⟩ := ih
    cases entityFacts with
    | none => exact ⟨hkey, hgid, hcons⟩
    | some facts =>
      cases providerResult with
      | error e => exact ⟨hkey, hgid, hcons⟩
      | ok text =>
        by_cases hv :
            violatesConstraints (mkInitiatedGeneration gid ety eid text now) db
        · simp only [generate, insertGeneration, hv, if_true]
          exact ⟨hkey, hgid, hcons⟩
        · rw [Bool.not_eq_true] at hv
          have hfresh := (violatesConstraints_eq_false_iff _ _).1 hv
          simp only [generate, insertGeneration, hv, Bool.false_eq_true,
            if_false]
          refine ⟨?_, ?_, ?_⟩
          · rw [keyDistinct, List.pairwise_append]
            refine ⟨hkey, List.pairwise_singleton _ _, ?_⟩
            intro a ha b hb
            rw [List.mem_singleton] at hb
            subst hb
            exact (hfresh a ha).2
          · rw [gidDistinct, List.pairwise_append]
            refine ⟨hgid, List.pairwise_singleton _ _, ?_⟩
            intro a ha b hb
            rw [List.mem_singleton] at hb
            subst hb
            exact (hfresh a ha).1
          · intro g hg
            rcases List.mem_append.1 hg with hg' | hg'
            · exact hcons g hg'
            · rw [List.mem_singleton] at hg'
              subst hg'
              exact Or.inl ⟨rfl, rfl, rfl, rfl, rfl⟩
  | updStep gid s now db hr hs ih =>
    obtain ⟨hkey, hgid, hcons⟩ := ih
    refine ⟨?_, ?_, ?_⟩
    · rw [keyDistinct, updateScores, List.pairwise_map]
      refine hkey.imp ?_
      intro a b hab
      have ha := updateScores_row_fields gid s now a
      have hb := updateScores_row_fields gid s now b
      rw [ha.1, ha.2.1, hb.1, hb.2.1]
      exact hab
    · rw [gidDistinct, updateScores, List.pairwise_map]
      refine hgid.imp ?_
      intro a b hab
      have ha := updateScores_row_fields gid s now a
      have hb := updateScores_row_fields gid s now b
      rw [ha.2.2, hb.2.2]
      exact hab
    · intro g hg
      rw [updateScores] at hg
      obtain ⟨a, ha, rfl⟩ := List.mem_map.1 hg
      by_cases hmatch : a.generation_id = gid
      · rw [if_pos hmatch]
        refine Or.inr ⟨rfl, ?_, ?_, ?_, ?_⟩ <;>
          simp [applyScores] <;>
          first
            | exact hs.1
            | exact hs.2.1
            | exact hs.2.2.1
            | exact hs.2.2.2
      · rw [if_neg hmatch]
        exact hcons a ha

/-! ## Claim theorems: the generations store -/

/-- C2: in every reachable content store at most one live Generation exists per
(entity_type, entity_id), and a `generate` call for an entity that already has
a row errors and leaves the store unchanged — it never produces a second
independent current record. -/
theorem generations_unique_live (db : List Generation) (h : Reachable db) :
    keyDistinct db ∧
    ∀ entityFacts providerResult gid ety eid now,
      (∃ r ∈ db, r.entity_type = ety ∧ r.entity_id = eid) →
      (∃ e, (generate entityFacts providerResult gid ety eid now db).1
          = Except.error e) ∧
        (generate entityFacts providerResult gid ety eid now db).2 = db := by
  obtain ⟨hkey, _hgid, _hcons⟩ := reachable_invariant db h
  refine ⟨hkey, ?_⟩
  intro entityFacts providerResult gid ety eid now hex
  cases entityFacts with
  | none => exact ⟨⟨GenError.notFound, rfl⟩, rfl⟩
  | some facts =>
    cases providerResult with
    | error e => exact ⟨⟨GenError.upstreamProvider, rfl⟩, rfl⟩
    | ok text =>
      have hv : violatesConstraints (mkInitiatedGeneration gid ety eid text now)
          db = true := by
        rw [violatesConstraints_eq_true_iff]
        obtain ⟨r, hr, hty, hid⟩ := hex
        exact ⟨r, hr, Or.inr ⟨hty, hid⟩⟩
      simp only [generate, insertGeneration, hv, if_true]
      exact ⟨⟨GenError.uniqueViolation, rfl⟩, trivial⟩

/-- C2 witness: a store holding one generation for ("character", "1"), reached
by one successful `generate`, is key-distinct, and a second `generate` for the
same entity errors with the store unchanged. -/
theorem generations_unique_live_witness :
    keyDistinct (generate (some "facts") (Except.ok "a summary") "g1"
        "character" "1" "t0" []).2 ∧
    (∃ e, (generate (some "facts") (Except.ok "other") "g2" "character" "1" "t1"
        (generate (some "facts") (Except.ok "a summary") "g1" "character" "1"
          "t0" []).2).1 = Except.error e) ∧
      (generate (some "facts") (Except.ok "other") "g2" "character" "1" "t1"
        (generate (some "facts") (Except.ok "a summary") "g1" "character" "1"
          "t0" []).2).2
        = (generate (some "facts") (Except.ok "a summary") "g1" "character" "1"
          "t0" []).2 := by
  have h := generations_unique_live
    (generate (some "facts") (Except.ok "a summary") "g1" "character" "1" "t0"
      []).2
    (Reachable.genStep (some "facts") (Except.ok "a summary") "g1" "character"
      "1" "t0" [] Reachable.init)
  refine ⟨h.1, h.2 (some "facts") (Except.ok "other") "g2" "character" "1" "t1"
    ?_⟩
  refine ⟨mkInitiatedGeneration "g1" "character" "1" "a summary" "t0", ?_, rfl,
    rfl⟩
  simp [generate, insertGeneration, violatesConstraints]

/-- C3: in every reachable store each Generation is either fully pending or
fully scored (the four fields move atomically); `update(generation_id, scores)`
writes all four fields, flips the status to GENERATED and refreshes updated_at
in its one matched row; and neither an update nor a generate call ever moves a
GENERATED row back to INITIATED. -/
theorem scores_update_atomic (db : List Generation) (h : Reachable db) :
    storeConsistent db ∧
    (∀ gid s now g', g' ∈ updateScores gid s now db → g'.generation_id = gid →
      g'.scores_status = ScoresStatus.GENERATED ∧
      g'.factual_score = s.factual ∧ g'.creativity_score = s.creativity ∧
      g'.completeness_score = s.completeness ∧
      g'.relevance_score = s.relevance ∧ g'.updated_at = now) ∧
    (∀ gid s now g, g ∈ db → g.scores_status = ScoresStatus.GENERATED →
      ∀ g', g' ∈ updateScores gid s now db →
        g'.generation_id = g.generation_id →
        g'.scores_status = ScoresStatus.GENERATED) ∧
    (∀ entityFacts providerResult gid ety eid now g, g ∈ db →
      g.scores_status = ScoresStatus.GENERATED →
      ∀ g', g' ∈ (generate entityFacts providerResult gid ety eid now db).2 →
        g'.generation_id = g.generation_id →
        g'.scores_status = ScoresStatus.GENERATED) := by
  obtain ⟨_hkey, hgid, hcons⟩ := reachable_invariant db h
  refine ⟨hcons, ?_, ?_, ?_⟩
  · intro gid s now g' hg' hgidEq
    rw [updateScores] at hg'
    obtain ⟨a, _ha, rfl⟩ := List.mem_map.1 hg'
    by_cases hmatch : a.generation_id = gid
    · rw [if_pos hmatch]
      exact ⟨rfl, rfl, rfl, rfl, rfl, rfl⟩
    · rw [if_neg hmatch] at hgidEq ⊢
      exact absurd hgidEq hmatch
  · intro gid s now g hg hgen g' hg' hsame
    rw [updateScores] at hg'
    obtain ⟨a, ha, rfl⟩ := List.mem_map.1 hg'
    by_cases hmatch : a.generation_id = gid
    · rw [if_pos hmatch]
      rfl
    · rw [if_neg hmatch] at hsame ⊢
      have : a = g := mem_of_gid_unique db hgid a ha g hg hsame
      subst this
      exact hgen
  · intro entityFacts providerResult gid ety eid now g hg hgen g' hg' hsame
    cases entityFacts with
    | none => exact (mem_of_gid_unique db hgid g' hg' g hg hsame) ▸ hgen
    | some facts =>
      cases providerResult with
      | error e => exact (mem_of_gid_unique db hgid g' hg' g hg hsame) ▸ hgen
      | ok text =>
        by_cases hv :
            violatesConstraints (mkInitiatedGeneration gid ety eid text now) db
        · simp only [generate, insertGeneration, hv, if_true] at hg'
          exact (mem_of_gid_unique db hgid g' hg' g hg hsame) ▸ hgen
        · rw [Bool.not_eq_true] at hv
          simp only [generate, insertGeneration, hv, Bool.false_eq_true,
            if_false] at hg'
          rcases List.mem_append.1 hg' with hin | hin
          · exact (mem_of_gid_unique db hgid g' hin g hg hsame) ▸ hgen
          · rw [List.mem_singleton] at hin
            subst hin
            have := ((violatesConstraints_eq_false_iff _ _).1 hv g hg).1
            exact absurd hsame.symm this

/-- C3 witness: in the store reached by one generate and one in-range update,
the invariant holds, the updated row carries the written scores with status
GENERATED, and the statements about status monotonicity apply. -/
theorem scores_update_atomic_witness :
    storeConsistent
      (updateScores "g1" ⟨1/2, 1/2, 1/2, 1/2⟩ "t1"
        (generate (some "facts") (Except.ok "a summary") "g1" "character" "1"
          "t0" []).2) := by
  have h := scores_update_atomic
    (updateScores "g1" ⟨1/2, 1/2, 1/2, 1/2⟩ "t1"
      (generate (some "facts") (Except.ok "a summary") "g1" "character" "1"
        "t0" []).2)
    (Reachable.updStep "g1" ⟨1/2, 1/2, 1/2, 1/2⟩ "t1" _
      (Reachable.genStep (some "facts") (Except.ok "a summary") "g1"
        "character" "1" "t0" [] Reachable.init)
      (by refine ⟨⟨?_, ?_⟩, ⟨?_, ?_⟩, ⟨?_, ?_⟩, ⟨?_, ?_⟩⟩ <;> norm_num))
  exact h.1

/-- Shape of a successful `generate`: the returned record is the freshly
built INITIATED row with sentinel scores, appended to the store. -/
lemma generate_ok_pending (entityFacts : Option String)
    (providerResult : Except Unit String) (gid ety eid now : String)
    (db : List Generation) (g : Generation) (db' : List Generation)
    (h : generate entityFacts providerResult gid ety eid now db
      = (Except.ok g, db')) :
    g.scores_status = ScoresStatus.INITIATED ∧
    g.factual_score = pendingSentinel ∧ g.creativity_score = pendingSentinel ∧
    g.completeness_score = pendingSentinel ∧
    g.relevance_score = pendingSentinel ∧ g ∈ db' := by
  cases entityFacts with
  | none => exact absurd (congrArg Prod.fst h) (by simp [generate])
  | some facts =>
    cases providerResult with
    | error e => exact absurd (congrArg Prod.fst h) (by simp [generate])
    | ok text =>
      by_cases hv :
          violatesConstraints (mkInitiatedGeneration gid ety eid text now) db
      · simp only [generate, insertGeneration, hv, if_true] at h
        exact absurd (congrArg Prod.fst h) (by simp)
      · rw [Bool.not_eq_true] at hv
        simp only [generate, insertGeneration, hv, Bool.false_eq_true,
          if_false] at h
        obtain ⟨h1, h2⟩ := Prod.mk.injEq .. ▸ h
        have hg : g = mkInitiatedGeneration gid ety eid text now := by
          cases h1
          rfl
        subst hg
        refine ⟨rfl, rfl, rfl, rfl, rfl, ?_⟩
        rw [← h2]
        exact List.mem_append.2 (Or.inr (List.mem_singleton.2 rfl))

/-- C4: whenever the synchronous phase of `generate` succeeds (before any
worker has run), the Generation it returns has status INITIATED and all four
scores equal to the pending sentinel, and it has been persisted. -/
theorem generate_returns_initiated (entityFacts : Option String)
    (providerResult : Except Unit String) (gid ety eid now : String)
    (db : List Generation) (g : Generation) (db' : List Generation)
    (h : generate entityFacts providerResult gid ety eid now db
      = (Except.ok g, db')) :
    g.scores_status = ScoresStatus.INITIATED ∧
    g.factual_score = pendingSentinel ∧ g.creativity_score = pendingSentinel ∧
    g.completeness_score = pendingSentinel ∧
    g.relevance_score = pendingSentinel ∧ g ∈ db' :=
  generate_ok_pending entityFacts providerResult gid ety eid now db g db' h

/-- C4 witness: a concrete successful `generate` yields the INITIATED,
all-sentinel record. -/
theorem generate_returns_initiated_witness :
    (mkInitiatedGeneration "g1" "character" "1" "a summary" "t0").scores_status
        = ScoresStatus.INITIATED ∧
    (mkInitiatedGeneration "g1" "character" "1" "a summary"
        "t0").factual_score = pendingSentinel ∧
    (mkInitiatedGeneration "g1" "character" "1" "a summary"
        "t0").creativity_score = pendingSentinel ∧
    (mkInitiatedGeneration "g1" "character" "1" "a summary"
        "t0").completeness_score = pendingSentinel ∧
    (mkInitiatedGeneration "g1" "character" "1" "a summary"
        "t0").relevance_score = pendingSentinel ∧
    mkInitiatedGeneration "g1" "character" "1" "a summary" "t0" ∈
      [mkInitiatedGeneration "g1" "character" "1" "a summary" "t0"] :=
  generate_returns_initiated (some "facts") (Except.ok "a summary") "g1"
    "character" "1" "t0" [] _ _ (by simp [generate, insertGeneration,
      violatesConstraints])

/-- C5: when the text-generation call fails, `generate` surfaces
UpstreamProviderError to the caller synchronously and the content store is
returned unchanged — no Generation is persisted on this path. -/
theorem generate_upstream_error_no_persist (facts : String) (e : Unit)
    (gid ety eid now : String) (db : List Generation) :
    generate (some facts) (Except.error e) gid ety eid now db
      = (Except.error GenError.upstreamProvider, db) := rfl

/-- C6: a job whose evaluation raises an error is discarded by the worker with
the store untouched — no retry, no re-enqueue — the affected Generations stay
INITIATED, and the queue continues with the next job exactly as if the failed
job had never been enqueued. -/
theorem worker_drops_failed_job
    (evalRun : ScoringJob → Except EvalError Scores) (now : String)
    (job : ScoringJob) (rest : List ScoringJob) (db : List Generation)
    (e : EvalError) (h : evalRun job = Except.error e) :
    process_job evalRun now db job = db ∧
    runWorker evalRun now (job :: rest) db = runWorker evalRun now rest db ∧
    ∀ g ∈ db, g.scores_status = ScoresStatus.INITIATED →
      g ∈ process_job evalRun now db job ∧
        g.scores_status = ScoresStatus.INITIATED := by
  have hp : process_job evalRun now db job = db := by
    rw [process_job, h]
  refine ⟨hp, ?_, ?_⟩
  · rw [runWorker, List.foldl_cons, hp]
    rfl
  · intro g hg hinit
    rw [hp]
    exact ⟨hg, hinit⟩

/-- C6 witness: a concrete always-failing evaluation leaves a one-row INITIATED
store untouched and the remaining queue processed on the unchanged store. -/
theorem worker_drops_failed_job_witness :
    process_job (fun _ => Except.error EvalError.evaluationFailed) "t1"
        [mkInitiatedGeneration "g1" "character" "1" "a summary" "t0"]
        ⟨"g1", "a summary", "facts"⟩
      = [mkInitiatedGeneration "g1" "character" "1" "a summary" "t0"] ∧
    runWorker (fun _ => Except.error EvalError.evaluationFailed) "t1"
        [⟨"g1", "a summary", "facts"⟩, ⟨"g2", "other", "facts"⟩]
        [mkInitiatedGeneration "g1" "character" "1" "a summary" "t0"]
      = runWorker (fun _ => Except.error EvalError.evaluationFailed) "t1"
        [⟨"g2", "other", "facts"⟩]
        [mkInitiatedGeneration "g1" "character" "1" "a summary" "t0"] ∧
    ∀ g ∈ [mkInitiatedGeneration "g1" "character" "1" "a summary" "t0"],
      g.scores_status = ScoresStatus.INITIATED →
      g ∈ process_job (fun _ => Except.error EvalError.evaluationFailed) "t1"
        [mkInitiatedGeneration "g1" "character" "1" "a summary" "t0"]
        ⟨"g1", "a summary", "facts"⟩ ∧
        g.scores_status = ScoresStatus.INITIATED :=
  worker_drops_failed_job (fun _ => Except.error EvalError.evaluationFailed)
    "t1" ⟨"g1", "a summary", "facts"⟩ [⟨"g2", "other", "facts"⟩]
    [mkInitiatedGeneration "g1" "character" "1" "a summary" "t0"]
    EvalError.evaluationFailed rfl

/-! ## Claim theorems: the evaluator scores -/

lemma foldl_sub_tenth (l : List String) (x : ℚ) :
    l.foldl (fun s _ => s - 1/10) x = x - (l.length : ℚ) / 10 := by
  induction l generalizing x with
  | nil => simp
  | cons a t ih =>
    rw [List.foldl_cons, ih, List.length_cons]
    push_cast
    ring

/-- C8: for every contradiction detector and every input, the factual score is
exactly 1 minus a penalty of 1/10 per detected contradiction, floored at 0,
and therefore always lies in the unit interval. -/
theorem factual_score_formula (extract_facts : String → List String)
    (check_contradictions : String → List String → List String)
    (text : String) (context : String) :
    _compute_factual_score extract_facts check_contradictions text context
        = max 0 (1 - ((check_contradictions text
            (extract_facts context)).length : ℚ) / 10) ∧
    0 ≤ _compute_factual_score extract_facts check_contradictions text
        context ∧
    _compute_factual_score extract_facts check_contradictions text context
        ≤ 1 := by
  have hval : _compute_factual_score extract_facts check_contradictions text
      context = max 0 (1 - ((check_contradictions text
        (extract_facts context)).length : ℚ) / 10) := by
    rw [_compute_factual_score]
    rw [foldl_sub_tenth]
  refine ⟨hval, ?_, ?_⟩
  · rw [hval]
    exact le_max_left 0 _
  · rw [hval]
    refine max_le (by norm_num) ?_
    have : (0 : ℚ) ≤ ((check_contradictions text
        (extract_facts context)).length : ℚ) / 10 := by positivity
    linarith

/-- C7 counterexample: with the parseable judge reply value 3/2 the snippet
returns 3/2 unclamped, outside the unit interval; with an unparsable reply the
parse error propagates instead of producing the neutral default 0.5. -/
theorem creativity_unclamped_counterexample :
    score_creativity_async (some (3/2)) = Except.ok (3/2) ∧
    ¬((3/2 : ℚ) ≤ 1) ∧
    score_creativity_async none = Except.error EvalError.evaluationFailed ∧
    score_creativity_async none ≠ Except.ok (1/2) := by
  refine ⟨rfl, by norm_num, rfl, ?_⟩
  intro h
  exact Except.noConfusion h

/-- C7 amended: the creativity scorer returns the parsed judge value as-is —
no clamping to the unit interval — and an unparsable reply propagates the
parse error (failing the job) rather than yielding the neutral default 0.5. -/
theorem creativity_parse_behaviour (x : ℚ) :
    score_creativity_async (some x) = Except.ok x ∧
    score_creativity_async none = Except.error EvalError.evaluationFailed :=
  ⟨rfl, rfl⟩

/-- Translated from the score rendering in
src/frontend/components/dashboard/DashboardContent.tsx (lines 360-398) and the
summary panel in src/unnamed/part_007 (lines 62-70): a score is shown as a
percentage exactly when `score >= 0`, otherwise a pending indicator is shown. -/
def scoreIsDisplayed (score : ℚ) : Bool := decide (0 ≤ score)

/-- C10 counterexample: a parseable judge reply of -1/2 is returned by the
creativity scorer as a real (stored) score that is negative, so not every real
score is non-negative — and the consumers' `score >= 0` test would misread it
as pending. -/
theorem negative_real_score_counterexample :
    score_creativity_async (some (-(1/2))) = Except.ok (-(1/2)) ∧
    ¬(0 ≤ (-(1/2) : ℚ)) ∧
    scoreIsDisplayed (-(1/2)) = false := by
  refine ⟨rfl, by norm_num, ?_⟩
  rw [scoreIsDisplayed, decide_eq_false_iff_not]
  norm_num

/-- C10 amended: the pending sentinel is the concrete value -1; a freshly
created Generation has all four scores equal to the sentinel; the consumers'
test `score >= 0` classifies the sentinel as pending and every genuine score in
the unit interval as scored, so the sentinel cannot collide with a genuine
score in the unit interval — though the unclamped creativity path can store a
negative real score, which this test would misread as pending. -/
theorem pending_sentinel_discrimination :
    pendingSentinel = -1 ∧
    (∀ entityFacts providerResult gid ety eid now db g db',
      generate entityFacts providerResult gid ety eid now db
          = (Except.ok g, db') →
      g.factual_score = pendingSentinel ∧
      g.creativity_score = pendingSentinel ∧
      g.completeness_score = pendingSentinel ∧
      g.relevance_score = pendingSentinel) ∧
    scoreIsDisplayed pendingSentinel = false ∧
    (∀ s : ℚ, 0 ≤ s → s ≤ 1 →
      scoreIsDisplayed s = true ∧ s ≠ pendingSentinel) := by
  refine ⟨rfl, ?_, ?_, ?_⟩
  · intro entityFacts providerResult gid ety eid now db g db' h
    have hp := generate_ok_pending entityFacts providerResult gid ety eid now
      db g db' h
    exact ⟨hp.2.1, hp.2.2.1, hp.2.2.2.1, hp.2.2.2.2.1⟩
  · rw [scoreIsDisplayed, decide_eq_false_iff_not, pendingSentinel]
    norm_num
  · intro s h0 _h1
    refine ⟨decide_eq_true h0, ?_⟩
    intro heq
    rw [heq, pendingSentinel] at h0
    norm_num at h0

/-- C10 witness: the discrimination facts applied at a concrete successful
generate and at the concrete genuine score 1/2. -/
theorem pending_sentinel_discrimination_witness :
    pendingSentinel = -1 ∧
    ((mkInitiatedGeneration "g1" "character" "1" "a summary"
        "t0").factual_score = pendingSentinel ∧
      (mkInitiatedGeneration "g1" "character" "1" "a summary"
        "t0").creativity_score = pendingSentinel ∧
      (mkInitiatedGeneration "g1" "character" "1" "a summary"
        "t0").completeness_score = pendingSentinel ∧
      (mkInitiatedGeneration "g1" "character" "1" "a summary"
        "t0").relevance_score = pendingSentinel) ∧
    scoreIsDisplayed pendingSentinel = false ∧
    (scoreIsDisplayed (1/2) = true ∧ (1/2 : ℚ) ≠ pendingSentinel) := by
  have h := pending_sentinel_discrimination
  exact ⟨h.1,
    h.2.1 (some "facts") (Except.ok "a summary") "g1" "character" "1" "t0" []
      (mkInitiatedGeneration "g1" "character" "1" "a summary" "t0")
      [mkInitiatedGeneration "g1" "character" "1" "a summary" "t0"]
      (by simp [generate, insertGeneration, violatesConstraints]),
    h.2.2.1, h.2.2.2 (1/2) (by norm_num) (by norm_num)⟩

/-! ## Semantic search (src/docs/features/SEMANTIC_SEARCH.md, lines 92-138) -/

noncomputable section

/-- The dot product of two embedding vectors, pairing coordinates up to the
shorter length. -/
def dot (v w : List ℝ) : ℝ :=
  ∑ i ∈ Finset.range (min v.length w.length), v.getD i 0 * w.getD i 0

/-- The Euclidean norm of an embedding vector. -/
def vecNorm (v : List ℝ) : ℝ := Real.sqrt (dot v v)

/-- Modelled from the spec: `cosine_similarity` — only its call site appears in
the source tree (src/docs/features/SEMANTIC_SEARCH.md line 125); the design doc
(section 4.5) defines it as dot(query, entry) divided by the product of the two
norms, with similarity 0 whenever either norm is zero (no division by zero). -/
def cosine_similarity (q e : List ℝ) : ℝ :=
  if vecNorm q = 0 ∨ vecNorm e = 0 then 0
  else dot q e / (vecNorm q * vecNorm e)

end

/-- One row of the `search_index` table (src/unnamed/part_001, lines 63-70);
the stored JSON embedding string is modelled as the parsed list of reals. -/
structure SearchIndexEntry where
  entity_type : String
  entity_id : String
  text_blob : String
  embedding_vector : List ℝ

/-- One element of the list returned by `semantic_search`
(src/docs/features/SEMANTIC_SEARCH.md, lines 127-133). -/
structure SearchResult where
  entity_type : String
  entity_id : String
  name : String
  snippet : String
  similarity : ℝ

noncomputable section

/-- The result record built for one index entry in the loop of
`semantic_search` (SEMANTIC_SEARCH.md lines 123-133). -/
def entryResult (extract_name : String → String)
    (extract_snippet : String → String → String) (query : String)
    (query_embedding : List ℝ) (entry : SearchIndexEntry) : SearchResult :=
  { entity_type := entry.entity_type
    entity_id := entry.entity_id
    name := extract_name entry.text_blob
    snippet := extract_snippet entry.text_blob query
    similarity := cosine_similarity query_embedding entry.embedding_vector }

/-- Stable insertion of a result into a descending-by-similarity list: the new
element goes in front of the first element whose similarity does not exceed
its own.  Inserting the original list front-to-back this way reproduces
exactly the order CPython's stable `list.sort(key=similarity, reverse=True)`
yields: descending similarity, equal keys in original order. -/
def insertDesc (a : SearchResult) : List SearchResult → List SearchResult
  | [] => [a]
  | b :: bs =>
    if b.similarity ≤ a.similarity then a :: b :: bs else b :: insertDesc a bs

/-- Stable descending sort by similarity, modelling
`results.sort(key=lambda x: x["similarity"], reverse=True)`
(SEMANTIC_SEARCH.md line 136): Python's sort is stable and its key involves
only the similarity — no (entity_type, entity_id) tie-break is applied. -/
def sortDesc : List SearchResult → List SearchResult
  | [] => []
  | a :: as => insertDesc a (sortDesc as)

/-- Translated from `semantic_search` (SEMANTIC_SEARCH.md, lines 114-137):
embed the query, build one result per index entry in store order, stable-sort
by similarity descending, truncate to `limit`.  The external embedding
provider is the function `embed`; the index store's enumeration is the list
`entries`; the helpers `extract_name` and `extract_snippet` have no body in
the source tree and are parameters. -/
def semantic_search (embed : String → List ℝ)
    (extract_name : String → String)
    (extract_snippet : String → String → String) (query : String)
    (entries : List SearchIndexEntry) (limit : ℕ) : List SearchResult :=
  let query_embedding := embed query
  let results := entries.map
    (entryResult extract_name extract_snippet query query_embedding)
  (sortDesc results).take limit

end

/-! ## Cosine similarity bounds -/

lemma dot_self_eq (v : List ℝ) :
    dot v v = ∑ i ∈ Finset.range v.length, v.getD i 0 * v.getD i 0 := by
  rw [dot, min_self]

lemma dot_self_nonneg (v : List ℝ) : 0 ≤ dot v v := by
  rw [dot]
  exact Finset.sum_nonneg fun i _ => mul_self_nonneg _

lemma abs_dot_le (q e : List ℝ) : |dot q e| ≤ vecNorm q * vecNorm e := by
  have habs : |dot q e|
      ≤ ∑ i ∈ Finset.range (min q.length e.length),
          |q.getD i 0| * |e.getD i 0| := by
    refine (Finset.abs_sum_le_sum_abs _ _).trans ?_
    exact le_of_eq (Finset.sum_congr rfl fun i _ => abs_mul _ _)
  have hcs : ∑ i ∈ Finset.range (min q.length e.length),
        |q.getD i 0| * |e.getD i 0|
      ≤ Real.sqrt (∑ i ∈ Finset.range (min q.length e.length),
            |q.getD i 0| ^ 2)
        * Real.sqrt (∑ i ∈ Finset.range (min q.length e.length),
            |e.getD i 0| ^ 2) :=
    Real.sum_mul_le_sqrt_mul_sqrt _ _ _
  have hq : ∑ i ∈ Finset.range (min q.length e.length), |q.getD i 0| ^ 2
      ≤ dot q q := by
    rw [dot_self_eq]
    refine le_trans (le_of_eq (Finset.sum_congr rfl fun i _ => ?_))
      (Finset.sum_le_sum_of_subset_of_nonneg
        (Finset.range_subset.2 (min_le_left _ _))
        (fun i _ _ => mul_self_nonneg _))
    rw [sq_abs, sq]
  have he : ∑ i ∈ Finset.range (min q.length e.length), |e.getD i 0| ^ 2
      ≤ dot e e := by
    rw [dot_self_eq]
    refine le_trans (le_of_eq (Finset.sum_congr rfl fun i _ => ?_))
      (Finset.sum_le_sum_of_subset_of_nonneg
        (Finset.range_subset.2 (min_le_right _ _))
        (fun i _ _ => mul_self_nonneg _))
    rw [sq_abs, sq]
  refine habs.trans (hcs.trans ?_)
  rw [vecNorm, vecNorm]
  exact mul_le_mul (Real.sqrt_le_sqrt hq) (Real.sqrt_le_sqrt he)
    (Real.sqrt_nonneg _) (Real.sqrt_nonneg _)

/-- C9: every cosine similarity lies in the closed interval from -1 to 1, and
whenever either vector has zero norm (for example an all-zero embedding) the
similarity is 0 by definition, so no division by zero occurs. -/
theorem cosine_similarity_bounds (q e : List ℝ) :
    (-1 ≤ cosine_similarity q e ∧ cosine_similarity q e ≤ 1) ∧
    ((vecNorm q = 0 ∨ vecNorm e = 0) → cosine_similarity q e = 0) := by
  constructor
  · by_cases h : vecNorm q = 0 ∨ vecNorm e = 0
    · rw [cosine_similarity, if_pos h]
      norm_num
    · rw [cosine_similarity, if_neg h]
      push_neg at h
      have hq : 0 < vecNorm q :=
        lt_of_le_of_ne (Real.sqrt_nonneg _) (Ne.symm h.1)
      have he : 0 < vecNorm e :=
        lt_of_le_of_ne (Real.sqrt_nonneg _) (Ne.symm h.2)
      have hd : 0 < vecNorm q * vecNorm e := mul_pos hq he
      have habs : |dot q e / (vecNorm q * vecNorm e)| ≤ 1 := by
        rw [abs_div, abs_of_pos hd]
        exact (div_le_one hd).2 (abs_dot_le q e)
      exact abs_le.1 habs
  · intro h
    rw [cosine_similarity, if_pos h]

/-- C9 witness: the all-zero embedding has zero norm and similarity 0 against
the query embedding with coordinates 1 and 2. -/
theorem cosine_similarity_bounds_witness :
    (-1 ≤ cosine_similarity [0, 0] [1, 2] ∧
      cosine_similarity [0, 0] [1, 2] ≤ 1) ∧
    cosine_similarity [0, 0] [1, 2] = 0 := by
  have h := cosine_similarity_bounds [0, 0] [1, 2]
  have hz : vecNorm [0, 0] = 0 := by
    have hd : dot ([0, 0] : List ℝ) ([0, 0] : List ℝ) = 0 := by
      rw [dot]
      norm_num [Finset.sum_range_succ]
    rw [vecNorm, hd, Real.sqrt_zero]
  exact ⟨h.1, h.2 (Or.inl hz)⟩

/-! ## Sorting lemmas for the search pipeline -/

lemma mem_insertDesc (x a : SearchResult) (l : List SearchResult) :
    x ∈ insertDesc a l ↔ x = a ∨ x ∈ l := by
  induction l with
  | nil => simp [insertDesc]
  | cons b bs ih =>
    rw [insertDesc]
    by_cases hle : b.similarity ≤ a.similarity
    · rw [if_pos hle]
      simp [List.mem_cons]
    · rw [if_neg hle]
      simp only [List.mem_cons, ih]
      tauto

lemma pairwise_insertDesc (a : SearchResult) (l : List SearchResult)
    (h : l.Pairwise (fun x y => y.similarity ≤ x.similarity)) :
    (insertDesc a l).Pairwise (fun x y => y.similarity ≤ x.similarity) := by
  induction l with
  | nil => simp [insertDesc]
  | cons b bs ih =>
    rw [List.pairwise_cons] at h
    rw [insertDesc]
    by_cases hle : b.similarity ≤ a.similarity
    · rw [if_pos hle]
      rw [List.pairwise_cons]
      refine ⟨?_, List.pairwise_cons.2 h⟩
      intro x hx
      rcases List.mem_cons.1 hx with rfl | hx'
      · exact hle
      · exact (h.1 x hx').trans hle
    · rw [if_neg hle]
      rw [List.pairwise_cons]
      refine ⟨?_, ih h.2⟩
      intro x hx
      rcases (mem_insertDesc x a bs).1 hx with rfl | hx'
      · exact le_of_lt (lt_of_not_le hle)
      · exact h.1 x hx'

lemma pairwise_sortDesc (l : List SearchResult) :
    (sortDesc l).Pairwise (fun x y => y.similarity ≤ x.similarity) := by
  induction l with
  | nil => exact List.Pairwise.nil
  | cons a as ih => exact pairwise_insertDesc a (sortDesc as) ih

lemma length_insertDesc (a : SearchResult) (l : List SearchResult) :
    (insertDesc a l).length = l.length + 1 := by
  induction l with
  | nil => rfl
  | cons b bs ih =>
    rw [insertDesc]
    by_cases hle : b.similarity ≤ a.similarity
    · rw [if_pos hle]
      rfl
    · rw [if_neg hle, List.length_cons, ih, List.length_cons]

lemma length_sortDesc (l : List SearchResult) :
    (sortDesc l).length = l.length := by
  induction l with
  | nil => rfl
  | cons a as ih =>
    rw [sortDesc, length_insertDesc, ih, List.length_cons]

lemma filter_insertDesc (s : ℝ) (a : SearchResult) (l : List SearchResult) :
    (insertDesc a l).filter (fun r => decide (r.similarity = s))
      = if a.similarity = s
          then a :: l.filter (fun r => decide (r.similarity = s))
          else l.filter (fun r => decide (r.similarity = s)) := by
  induction l with
  | nil =>
    rw [insertDesc]
    by_cases hpa : a.similarity = s
    · rw [if_pos hpa]
      simp [List.filter_cons, hpa]
    · rw [if_neg hpa]
      simp [List.filter_cons, hpa]
  | cons b bs ih =>
    rw [insertDesc]
    by_cases hle : b.similarity ≤ a.similarity
    · rw [if_pos hle]
      by_cases hpa : a.similarity = s
      · rw [if_pos hpa]
        simp [List.filter_cons, hpa]
      · rw [if_neg hpa]
        simp [List.filter_cons, hpa]
    · rw [if_neg hle]
      have hblt : a.similarity < b.similarity := lt_of_not_le hle
      by_cases hpa : a.similarity = s
      · have hpb : ¬ b.similarity = s := by
          rw [← hpa]
          exact ne_of_gt hblt
        simp [List.filter_cons, hpa, hpb, ih]
      · simp [List.filter_cons, hpa, ih]

lemma filter_sortDesc (s : ℝ) (l : List SearchResult) :
    (sortDesc l).filter (fun r => decide (r.similarity = s))
      = l.filter (fun r => decide (r.similarity = s)) := by
  induction l with
  | nil => rfl
  | cons a as ih =>
    rw [sortDesc, filter_insertDesc, List.filter_cons]
    by_cases hpa : a.similarity = s
    · rw [if_pos hpa, ih]
      simp [hpa]
    · rw [if_neg hpa, ih]
      simp [hpa]

lemma filter_take_front {α : Type} (p : α → Bool) (n : ℕ) (l : List α) :
    ∃ t, (l.take n).filter p ++ t = l.filter p :=
  ⟨(l.drop n).filter p, by rw [← List.filter_append, List.take_append_drop]⟩

/-! ## Claim theorems: search ordering -/

/-- Ascending lexicographic order on (entity_type, entity_id), the tie-break
the claim asserts; string order is character-wise lexicographic (Python's
tuple and string comparison), stated on the character lists. -/
def keyLt (a b : SearchResult) : Prop :=
  a.entity_type.data < b.entity_type.data ∨
    (a.entity_type = b.entity_type ∧ a.entity_id.data < b.entity_id.data)

/-- The ordering the claim asserts of the returned list: strictly higher
similarity first, ties broken ascending by (entity_type, entity_id). -/
def claimOrder (a b : SearchResult) : Prop :=
  b.similarity < a.similarity ∨ (a.similarity = b.similarity ∧ keyLt a b)

lemma cosine_similarity_two_zero : cosine_similarity [1, 0] [2, 0] = 1 := by
  have hdq : dot ([1, 0] : List ℝ) ([1, 0] : List ℝ) = 1 := by
    rw [dot]
    norm_num [Finset.sum_range_succ]
  have hde : dot ([2, 0] : List ℝ) ([2, 0] : List ℝ) = 4 := by
    rw [dot]
    norm_num [Finset.sum_range_succ]
  have hdqe : dot ([1, 0] : List ℝ) ([2, 0] : List ℝ) = 2 := by
    rw [dot]
    norm_num [Finset.sum_range_succ]
  have hnq : vecNorm [1, 0] = 1 := by
    rw [vecNorm, hdq, Real.sqrt_one]
  have hne : vecNorm [2, 0] = 2 := by
    rw [vecNorm, hde]
    rw [show (4 : ℝ) = 2 ^ 2 by norm_num]
    exact Real.sqrt_sq (by norm_num)
  rw [cosine_similarity, hnq, hne, hdqe]
  norm_num

lemma cosine_similarity_one_zero : cosine_similarity [1, 0] [1, 0] = 1 := by
  have hdq : dot ([1, 0] : List ℝ) ([1, 0] : List ℝ) = 1 := by
    rw [dot]
    norm_num [Finset.sum_range_succ]
  have hnq : vecNorm [1, 0] = 1 := by
    rw [vecNorm, hdq, Real.sqrt_one]
  rw [cosine_similarity, hnq, hdq]
  norm_num

noncomputable section

/-- Concrete index entry enumerated first by the store: key ("location", "9"),
embedding collinear with the query. -/
def tieEntryA : SearchIndexEntry := ⟨"location", "9", "blobA", [2, 0]⟩

/-- Concrete index entry enumerated second: key ("character", "1"), embedding
equal to the query. -/
def tieEntryB : SearchIndexEntry := ⟨"character", "1", "blobB", [1, 0]⟩

/-- The result row built for `tieEntryA`. -/
def tieResultA : SearchResult :=
  entryResult (fun blob => blob) (fun blob _ => blob) "portal gun" [1, 0]
    tieEntryA

/-- The result row built for `tieEntryB`. -/
def tieResultB : SearchResult :=
  entryResult (fun blob => blob) (fun blob _ => blob) "portal gun" [1, 0]
    tieEntryB

end

lemma tieResultA_similarity : tieResultA.similarity = 1 :=
  cosine_similarity_two_zero

lemma tieResultB_similarity : tieResultB.similarity = 1 :=
  cosine_similarity_one_zero

lemma tie_search_eval :
    semantic_search (fun _ => [1, 0]) (fun blob => blob) (fun blob _ => blob)
      "portal gun" [tieEntryA, tieEntryB] 5 = [tieResultA, tieResultB] := by
  have hle : tieResultB.similarity ≤ tieResultA.similarity := by
    rw [tieResultA_similarity, tieResultB_similarity]
  have h2 : insertDesc tieResultA [tieResultB] = [tieResultA, tieResultB] := by
    simp only [insertDesc]
    rw [if_pos hle]
  show (insertDesc tieResultA (insertDesc tieResultB (sortDesc []))).take 5
      = [tieResultA, tieResultB]
  rw [show sortDesc ([] : List SearchResult) = [] from rfl,
    show insertDesc tieResultB [] = [tieResultB] from rfl, h2]
  rfl

/-- C1 counterexample: with query embedding with coordinates 1 and 0, an index
store enumerating key ("location", "9") before key ("character", "1") and both
entries at cosine similarity 1, the returned list keeps the store order —
("location", "9") first — so equal-similarity entries are not ordered
ascending by (entity_type, entity_id): the stable sort has no such tie-break. -/
theorem semantic_search_tiebreak_counterexample :
    ¬ List.Pairwise claimOrder
      (semantic_search (fun _ => [1, 0]) (fun blob => blob)
        (fun blob _ => blob) "portal gun" [tieEntryA, tieEntryB] 5) := by
  intro hpair
  rw [tie_search_eval] at hpair
  have hAB : claimOrder tieResultA tieResultB :=
    (List.pairwise_cons.1 hpair).1 tieResultB
      (List.mem_cons.2 (Or.inl rfl))
  rcases hAB with hlt | ⟨_heq, hkey⟩
  · rw [tieResultA_similarity, tieResultB_similarity] at hlt
    exact lt_irrefl 1 hlt
  · rcases hkey with hk | ⟨hk, _⟩
    · exact (by decide : ¬("location".data < "character".data)) hk
    · exact (by decide : ¬("location" = "character")) hk

/-- C1 amended: `search(query, limit)` returns at most `limit` results sorted
by non-increasing similarity, and entries with equal similarity keep the order
in which the index store enumerated them (the sort is stable) — no
(entity_type, entity_id) tie-break is applied. -/
theorem semantic_search_ordering (embed : String → List ℝ)
    (extract_name : String → String)
    (extract_snippet : String → String → String) (query : String)
    (entries : List SearchIndexEntry) (limit : ℕ) :
    (semantic_search embed extract_name extract_snippet query entries
        limit).length ≤ limit ∧
    (semantic_search embed extract_name extract_snippet query entries
        limit).Pairwise (fun a b => b.similarity ≤ a.similarity) ∧
    ∀ s : ℝ, ∃ t,
      (semantic_search embed extract_name extract_snippet query entries
          limit).filter (fun r => decide (r.similarity = s)) ++ t
        = (entries.map (entryResult extract_name extract_snippet query
            (embed query))).filter (fun r => decide (r.similarity = s)) := by
  refine ⟨?_, ?_, ?_⟩
  · show ((sortDesc (entries.map (entryResult extract_name extract_snippet
        query (embed query)))).take limit).length ≤ limit
    rw [List.length_take]
    exact min_le_left _ _
  · show ((sortDesc (entries.map (entryResult extract_name extract_snippet
        query (embed query)))).take limit).Pairwise
        (fun a b => b.similarity ≤ a.similarity)
    exact List.Pairwise.sublist (List.take_sublist _ _) (pairwise_sortDesc _)
  · intro s
    obtain ⟨t, ht⟩ := filter_take_front (fun r => decide (r.similarity = s))
      limit (sortDesc (entries.map (entryResult extract_name extract_snippet
        query (embed query))))
    rw [filter_sortDesc] at ht
    exact ⟨t, ht⟩
